import Mathlib

/-!
Shallow embedding of the action governance pipeline of the
`odarkserver/ai-dataset-storage` repository:

* `PermissionGate` (src/unnamed/part_005): roles, user permission sets,
  authorization checks with an in-memory check log, and the
  grant/revoke/assign administration API;
* `AgentExecutor` (src/src/lib/core/agentExecutor.ts): `createPreview`
  (the three `analyze*Actions` keyword matchers) and `execute`
  (the approval-gated dispatch loop);
* `PluginExecutor.executePlugin` (src/src/lib/plugins/githubStorage.ts) and
  `CommitRouter.executeAction` (src/src/lib/api/zhupiAdapter.ts): capability
  lookup, validation, execution wrapping and the execution-history buffer;
* `AuditLogger` (src/src/lib/plugins/githubStorage.ts): pending buffer,
  immediate flush on error/critical level.

Modelling conventions: JavaScript `Map`s become association lists preserving
insertion order, JS `Set`s become duplicate-free lists preserving insertion
order, `Date` wall-clock fields are either dropped or passed as explicit
parameters (they affect no control flow), console output becomes an explicit
list of emitted messages, thrown exceptions become `Except`, and external
capability behaviour (network calls) is a function parameter.
-/

namespace Odark

/-- JSON-like opaque values used for action parameters and results. -/
inductive JVal where
  | null : JVal
  | b    : Bool → JVal
  | s    : String → JVal
  | obj  : List (String × JVal) → JVal

/-- Contiguous-sublist test on character lists. -/
def containsSub : List Char → List Char → Bool
  | hay, needle =>
    match hay with
    | [] => needle.isEmpty
    | _ :: rest => needle.isPrefixOf hay || containsSub rest needle

/-- Case-insensitive substring test: models
`input.toLowerCase().includes(keyword)` (all source keywords are already
lower case literals). -/
def lcIncludes (input keyword : String) : Bool :=
  containsSub (input.toList.map Char.toLower) keyword.toList

/-- Association-list update with JavaScript `Map.set` semantics: replace the
first binding of the key, or append a new binding at the end. -/
def aset {α : Type} : List (String × α) → String → α → List (String × α)
  | [], k, v => [(k, v)]
  | (k0, v0) :: rest, k, v =>
      if k0 = k then (k0, v) :: rest else (k0, v0) :: aset rest k v

/-- JavaScript `Set.add` on a duplicate-free list: append if absent. -/
def setAdd (l : List String) (a : String) : List String :=
  if l.contains a then l else l ++ [a]

/-- Models `new Set(list)` in JavaScript: drop duplicates keeping the first
occurrence of each element. -/
def dedupFirst (l : List String) : List String :=
  l.foldl (fun acc a => if acc.contains a then acc else acc ++ [a]) []

/-! ## PermissionGate (src/unnamed/part_005) -/

/-- One entry of the in-memory permission check log (interface `Permission`
in the source; the `Date` timestamp is dropped). -/
structure PermCheck where
  action  : String
  user    : String
  granted : Bool
  reason  : Option String

/-- A role: name, permission list, description. -/
structure Role where
  name        : String
  permissions : List String
  description : String

/-- Console message severity (`console.log` vs `console.warn`). -/
inductive CLevel where
  | info : CLevel
  | warn : CLevel

/-- A console message emitted by a PermissionGate operation. -/
structure CMsg where
  level : CLevel
  text  : String

/-- Mutable state of the `PermissionGate` singleton: the user permission
map, the role table, and the bounded in-memory check log (`auditLog` field
in the source). -/
structure PGState where
  permissions : List (String × List String)
  roles       : List (String × Role)
  checkLog    : List PermCheck

/-- Permission list of the `super_admin` role (from `initializeRoles`). -/
def superAdminPerms : List String :=
  ["pluginSummarizer", "pluginTranslator", "pluginGitHubStorage",
   "restartAgent", "clearCache", "getPersona", "updateMemory",
   "systemDiagnostic", "healthCheck", "systemConfiguration",
   "userManagement", "auditAccess", "apiManagement"]

/-- Permission list of the `admin` role. -/
def adminPerms : List String :=
  ["pluginSummarizer", "pluginTranslator", "pluginGitHubStorage",
   "getPersona", "systemDiagnostic", "healthCheck"]

/-- Permission list of the `user` role. -/
def userPerms : List String :=
  ["pluginSummarizer", "pluginTranslator", "pluginGitHubStorage",
   "getPersona"]

/-- The role table built by `initializeRoles`. -/
def initRoles : List (String × Role) :=
  [("super_admin",
    { name := "Super Admin", permissions := superAdminPerms,
      description := "Full system access - Only Han" }),
   ("admin",
    { name := "Administrator", permissions := adminPerms,
      description := "Administrative access - Limited permissions" }),
   ("user",
    { name := "User", permissions := userPerms,
      description := "Basic user access - Read-only plugins" }),
   ("guest",
    { name := "Guest", permissions := [],
      description := "No execution permissions - Chat only" })]

/-- The user permission map built by `initializePermissions`: only `Han`
and `han`, both with the full `super_admin` permission set. -/
def initPermissions : List (String × List String) :=
  [("Han", superAdminPerms), ("han", superAdminPerms)]

/-- The PermissionGate state right after construction. -/
def initPG : PGState :=
  { permissions := initPermissions, roles := initRoles, checkLog := [] }

/-- Models `logPermission`: append a check record to the in-memory log, trimming
the log to its most recent 500 entries once it exceeds 1000. -/
def logPermission (st : PGState) (action user : String) (granted : Bool)
    (reason : Option String) : PGState :=
  let log := st.checkLog ++ [{ action := action, user := user,
                               granted := granted, reason := reason }]
  { st with checkLog := if log.length > 1000 then log.drop (log.length - 500) else log }

/-- Models `PermissionGate.isAuthorized(action, user)`: missing user denies; an
existing user is authorized iff the action is in the permission set of the user.
Every call appends a check record. -/
def isAuthorized (st : PGState) (action user : String) : Bool × PGState :=
  match st.permissions.lookup user with
  | none =>
      (false, logPermission st action user false
        (some "User not found in permission system"))
  | some perms =>
      let ok := perms.contains action
      (ok, logPermission st action user ok
        (some (if ok then "Action authorized" else "Action not in user permissions")))

/-- The pure decision part of `isAuthorized` (the check-log append does not
influence the returned boolean). -/
def isAuthorizedB (st : PGState) (action user : String) : Bool :=
  (isAuthorized st action user).1

/-- Models `PermissionGate.hasRole(user, role)`: true iff the user exists, the role
exists, and the permission set of the user contains every permission of the role. -/
def hasRole (st : PGState) (user role : String) : Bool :=
  match st.permissions.lookup user, st.roles.lookup role with
  | some up, some r => r.permissions.all (fun p => up.contains p)
  | _, _ => false

/-- Models `PermissionGate.grantPermission(user, action, grantedBy)`: requires the
actor to hold `super_admin` (returning `false` with a `console.warn`
otherwise), then inserts the action into the permission set of the user
(creating an empty set for an unknown user first). No record is appended to
the check log or to any audit store; only console messages are emitted. -/
def grantPermission (st : PGState) (user action grantedBy : String) :
    Bool × PGState × List CMsg :=
  if !(hasRole st grantedBy "super_admin") then
    (false, st,
     [{ level := .warn,
        text := s!"{grantedBy} attempted to grant permission without super admin role" }])
  else
    let st1 :=
      if (st.permissions.lookup user).isSome then st
      else { st with permissions := aset st.permissions user [] }
    let up := (st1.permissions.lookup user).getD []
    (true,
     { st1 with permissions := aset st1.permissions user (setAdd up action) },
     [{ level := .info,
        text := s!"Permission {action} granted to {user} by {grantedBy}" }])

/-- Models `PermissionGate.revokePermission(user, action, revokedBy)`: requires
`super_admin`; unknown user yields `false`; otherwise removes the action
from the set of the user and returns whether it was present. -/
def revokePermission (st : PGState) (user action revokedBy : String) :
    Bool × PGState × List CMsg :=
  if !(hasRole st revokedBy "super_admin") then
    (false, st,
     [{ level := .warn,
        text := s!"{revokedBy} attempted to revoke permission without super admin role" }])
  else
    match st.permissions.lookup user with
    | none => (false, st, [])
    | some up =>
        let removed := up.contains action
        ((removed : Bool),
         { st with permissions := aset st.permissions user (up.erase action) },
         if removed then
           [{ level := .info,
              text := s!"Permission {action} revoked from {user} by {revokedBy}" }]
         else [])

/-- Models `PermissionGate.assignRole(user, role, assignedBy)`: requires
`super_admin`; unknown role yields `false`; otherwise replaces the
whole permission set with `new Set(role.permissions)`. -/
def assignRole (st : PGState) (user role assignedBy : String) :
    Bool × PGState × List CMsg :=
  if !(hasRole st assignedBy "super_admin") then
    (false, st,
     [{ level := .warn,
        text := s!"{assignedBy} attempted to assign role without super admin role" }])
  else
    match st.roles.lookup role with
    | none =>
        (false, st, [{ level := .warn, text := s!"Role {role} not found" }])
    | some roleData =>
        (true,
         { st with permissions := aset st.permissions user (dedupFirst roleData.permissions) },
         [{ level := .info,
            text := s!"Role {role} assigned to {user} by {assignedBy}" }])

/-- Models `PermissionGate.getUserPermissions(user)`: the permission set of the user as
a list, `[]` for an unknown user. -/
def getUserPermissions (st : PGState) (user : String) : List String :=
  (st.permissions.lookup user).getD []

/-- Static risk classification. -/
inductive RiskLevel where
  | low : RiskLevel
  | medium : RiskLevel
  | high : RiskLevel
  | critical : RiskLevel
deriving DecidableEq

/-- Models `PermissionGate.requiresApproval(action)`: membership in the static
high-impact action list. -/
def requiresApproval (action : String) : Bool :=
  ["restartAgent", "clearCache", "updateMemory", "systemConfiguration",
   "userManagement", "apiManagement"].contains action

/-- Models `PermissionGate.getActionRiskLevel(action)`: static classification
tables consulted in order critical, high, medium; default low. -/
def getActionRiskLevel (action : String) : RiskLevel :=
  if ["restartAgent"].contains action then .critical
  else if ["clearCache", "updateMemory", "userManagement"].contains action then .high
  else if ["systemDiagnostic", "systemConfiguration"].contains action then .medium
  else .low

/-! ## AgentExecutor (src/src/lib/core/agentExecutor.ts) -/

/-- The four action dispatch classes of `ExecutionPreview.type`. -/
inductive PType where
  | plugin : PType
  | commit_api : PType
  | zhupi_api : PType
  | internal : PType

/-- Models `ExecutionPreview`: one candidate action (the `Date`-free fields of the
source interface). -/
structure Preview where
  action           : String
  typ              : PType
  description      : String
  parameters       : JVal
  requiresApproval : Bool
  estimatedImpact  : String

/-- Models `AgentExecutor.analyzePluginActions(input)`: keyword matchers for the
summarizer, translator, and GitHub-storage plugins. -/
def analyzePluginActions (input : String) : List Preview :=
  (if lcIncludes input "ringkas" || lcIncludes input "summarize" then
    [{ action := "pluginSummarizer", typ := .plugin,
       description := "Membuat ringkasan dari teks yang diberikan",
       parameters := .obj [("text", .s input)],
       requiresApproval := false,
       estimatedImpact := "Low - Text processing only" }]
   else []) ++
  (if lcIncludes input "terjemah" || lcIncludes input "translate" then
    [{ action := "pluginTranslator", typ := .plugin,
       description := "Menerjemahkan teks ke bahasa lain",
       parameters := .obj [("text", .s input)],
       requiresApproval := false,
       estimatedImpact := "Low - Text processing only" }]
   else []) ++
  (if ["simpan dataset", "save dataset", "github", "repository",
       "load dataset", "muat dataset", "list dataset", "daftar dataset",
       "delete dataset", "hapus dataset", "search dataset", "cari dataset"
      ].any (fun kw => lcIncludes input kw) then
    let actDesc : String × String :=
      if lcIncludes input "simpan" || lcIncludes input "save" then
        ("save", "Menyimpan dataset ke GitHub")
      else if lcIncludes input "muat" || lcIncludes input "load" then
        ("load", "Memuat dataset dari GitHub")
      else if lcIncludes input "hapus" || lcIncludes input "delete" then
        ("delete", "Menghapus dataset dari GitHub")
      else if lcIncludes input "cari" || lcIncludes input "search" then
        ("search", "Mencari dataset di GitHub")
      else ("list", "Mengelola dataset di GitHub repository")
    [{ action := "pluginGitHubStorage", typ := .plugin,
       description := actDesc.2,
       parameters := .obj [("action", .s actDesc.1), ("input", .s input),
         ("config", .obj [("username", .s "han-odark"),
                          ("repository", .s "ai-datasets")])],
       requiresApproval := false,
       estimatedImpact := "Low - GitHub API access" }]
   else [])

/-- Models `AgentExecutor.analyzeCommitActions(input)`: restart-agent and
clear-cache command matchers. -/
def analyzeCommitActions (input : String) : List Preview :=
  (if lcIncludes input "restart agent" || lcIncludes input "restart sistem" then
    [{ action := "restartAgent", typ := .commit_api,
       description := "Restart AI agent dan sistem terkait",
       parameters := .obj [],
       requiresApproval := true,
       estimatedImpact := "High - System restart will affect all users" }]
   else []) ++
  (if lcIncludes input "clear cache" || lcIncludes input "bersihkan cache" then
    [{ action := "clearCache", typ := .commit_api,
       description := "Membersihkan cache sistem",
       parameters := .obj [],
       requiresApproval := true,
       estimatedImpact := "Medium - Temporary performance impact" }]
   else [])

/-- Models `AgentExecutor.analyzeZhupiActions(input)`: get-persona and
update-memory matchers. -/
def analyzeZhupiActions (input : String) : List Preview :=
  (if lcIncludes input "get persona" || lcIncludes input "lihat persona" then
    [{ action := "getPersona", typ := .zhupi_api,
       description := "Mengambil persona aktif dari Zhupi API",
       parameters := .obj [],
       requiresApproval := false,
       estimatedImpact := "Low - Read operation" }]
   else []) ++
  (if lcIncludes input "update memory" || lcIncludes input "perbarui memori" then
    [{ action := "updateMemory", typ := .zhupi_api,
       description := "Memperbarui preferensi pengguna di Zhupi API",
       parameters := .obj [("updates", .obj [])],
       requiresApproval := true,
       estimatedImpact := "Medium - Modifies user preferences" }]
   else [])

/-- The preview list of `AgentExecutor.createPreview`: plugin, then commit,
then zhupi candidates (the prompt text built alongside is external to the
governance pipeline and not modelled). -/
def createPreviews (input : String) : List Preview :=
  analyzePluginActions input ++ analyzeCommitActions input ++ analyzeZhupiActions input

/-- The `requiresApproval` flag returned by `createPreview`:
`previews.some(p => p.requiresApproval)`. -/
def createPreviewRequiresApproval (input : String) : Bool :=
  (createPreviews input).any (fun p => p.requiresApproval)

/-- Models `ExecutionResult` (the `Date` timestamp field is dropped): the `result`
field holds the capability result on success and an `{error: ...}` object
otherwise, as in the source. -/
structure ExecutionResult where
  success     : Bool
  action      : String
  result      : JVal
  executionId : String
  auditLog    : String

/-- The payload of an `AuditLogger.logAction` call made by
`AgentExecutor.execute`. -/
inductive APayload where
  | start   : String → List String → APayload
  | success : String → JVal → APayload
  | failure : String → String → APayload

/-- One `AuditLogger.logAction(actor, action, result)` call observed during
`execute`. -/
structure AuditCall where
  actor   : String
  action  : String
  payload : APayload

/-- A capability dispatch performed by `execute` (to the plugin executor,
commit router, zhupi adapter, or internal switch). -/
structure Invocation where
  typ    : PType
  action : String
  params : JVal

/-- Everything observable about one `execute` run: the returned result
list, the `logAction` calls made, and the capability dispatches performed. -/
structure ExecOut where
  results     : List ExecutionResult
  audits      : List AuditCall
  invocations : List Invocation

/-- The body of the per-preview loop iteration of `execute`: skip non-approved
names; emit an unauthorized failure without dispatching when the permission
gate denies; otherwise dispatch (`exec` models the capability, `.error` a
thrown exception) and log the outcome. Returns the result pushed (if any),
the `logAction` calls made, and the dispatches performed. -/
def execStep (pg : PGState) (user execId : String) (approved : List String)
    (exec : Preview → Except String JVal) (p : Preview) :
    Option ExecutionResult × List AuditCall × List Invocation :=
  if !(approved.contains p.action) then (none, [], [])
  else if !(isAuthorizedB pg p.action user) then
    (some { success := false, action := p.action,
            result := .obj [("error", .s "Unauthorized action")],
            executionId := execId,
            auditLog := s!"Action {p.action} rejected by permission gate" },
     [], [])
  else
    match exec p with
    | .ok r =>
        (some { success := true, action := p.action, result := r,
                executionId := execId,
                auditLog := s!"Successfully executed {p.action}" },
         [{ actor := user, action := p.action, payload := .success execId r }],
         [{ typ := p.typ, action := p.action, params := p.parameters }])
    | .error e =>
        (some { success := false, action := p.action,
                result := .obj [("error", .s e)],
                executionId := execId,
                auditLog := s!"Failed to execute {p.action}: {e}" },
         [{ actor := user, action := p.action, payload := .failure execId e }],
         [{ typ := p.typ, action := p.action, params := p.parameters }])

/-- Models `AgentExecutor.execute(request, approvedActions)`: log the
execution-start record, regenerate the previews from the input, and run the
per-preview loop. `pg` is the permission gate state, `execId` the generated
execution id, `exec` the behaviour of the dispatched capabilities. -/
def executeModel (pg : PGState) (user input execId : String)
    (approved : List String) (exec : Preview → Except String JVal) : ExecOut :=
  let previews := createPreviews input
  { results := previews.filterMap (fun p => (execStep pg user execId approved exec p).1),
    audits := { actor := user, action := input,
                payload := .start execId approved } ::
      previews.flatMap (fun p => (execStep pg user execId approved exec p).2.1),
    invocations :=
      previews.flatMap (fun p => (execStep pg user execId approved exec p).2.2) }

/-! ## PluginExecutor (src/src/lib/plugins/githubStorage.ts) -/

/-- Failure tag of an execution result (the source stores these as message
strings: `... not found`, `Invalid parameters ...`, or the thrown error). -/
inductive ExecErr where
  | notFound : ExecErr
  | invalidParameters : ExecErr
  | thrown : String → ExecErr

/-- A registered plugin capability: optional `validate` predicate and the
`execute` behaviour (`.error` models a thrown exception). -/
structure Plugin where
  name        : String
  description : String
  version     : String
  validate    : Option (JVal → Bool)
  run         : JVal → Except String JVal

/-- Models `PluginResult` (the `Date` timestamp is dropped; `executionTime` is the
elapsed time, passed in as `dur` for the executed path and 0 for the early
returns, since the model has no wall clock). -/
structure PluginResult where
  success       : Bool
  plugin        : String
  result        : Option JVal
  executionTime : Nat
  error         : Option ExecErr

/-- Models `PluginExecutor.executePlugin(pluginName, parameters)` together with
its effect on the `executionHistory` buffer. Absent plugin: `not found`
failure, nothing appended. Rejected parameters: `invalid parameters`
failure, nothing appended. Successful execution: success result appended,
then the buffer is trimmed to its last 50 entries when it exceeds 100.
Thrown execution: failure result appended with no trimming. -/
def executePlugin (plugins : List (String × Plugin)) (dur : Nat)
    (name : String) (params : JVal) (hist : List PluginResult) :
    PluginResult × List PluginResult :=
  match plugins.lookup name with
  | none =>
      ({ success := false, plugin := name, result := none,
         executionTime := 0, error := some .notFound }, hist)
  | some plugin =>
      if plugin.validate.elim false (fun v => !(v params)) then
        ({ success := false, plugin := name, result := none,
           executionTime := 0, error := some .invalidParameters }, hist)
      else
        match plugin.run params with
        | .ok r =>
            let res : PluginResult :=
              { success := true, plugin := name, result := some r,
                executionTime := dur, error := none }
            let h := hist ++ [res]
            (res, if h.length > 100 then h.drop (h.length - 50) else h)
        | .error e =>
            let res : PluginResult :=
              { success := false, plugin := name, result := none,
                executionTime := dur, error := some (.thrown e) }
            (res, hist ++ [res])

/-! ## CommitRouter (src/src/lib/api/zhupiAdapter.ts) -/

/-- Impact classification of a commit action. -/
inductive Impact where
  | low : Impact
  | medium : Impact
  | high : Impact
  | critical : Impact

/-- Category of a commit action. -/
inductive CCategory where
  | system_cat : CCategory
  | cache : CCategory
  | service : CCategory
  | config : CCategory

/-- A registered privileged command (`CommitAction`): category, impact,
optional `validate`, and the `execute` behaviour. -/
structure CommitAction where
  name        : String
  description : String
  category    : CCategory
  impact      : Impact
  validate    : Option (JVal → Bool)
  run         : JVal → Except String JVal

/-- Models `CommitResult` (the `Date` timestamp is dropped). -/
structure CommitResult where
  success          : Bool
  action           : String
  result           : Option JVal
  executionTime    : Nat
  affectedServices : List String
  error            : Option ExecErr

/-- Models `CommitRouter.getAffectedServices(actionName)`: static table with an
`Unknown Service` default. -/
def getAffectedServices (actionName : String) : List String :=
  match actionName with
  | "restartAgent" => ["AI Models", "Local Storage", "Cache System", "API Endpoints"]
  | "clearCache" => ["Local Storage", "Memory Cache", "API Response Cache"]
  | "restartModels" => ["AI Models", "Chat API", "Completion API"]
  | "updateConfig" => ["Configuration Service", "All Services"]
  | "backupSystem" => ["Local Storage", "Database", "File System"]
  | "cleanupLogs" => ["Database", "Audit System", "Log Storage"]
  | _ => ["Unknown Service"]

/-- Models `CommitRouter.executeAction(actionName, parameters)` together with its
effect on the `executionHistory` buffer of the router; same control flow as
`executePlugin`, with `affectedServices` filled on the executed paths. -/
def executeCommitAction (actions : List (String × CommitAction)) (dur : Nat)
    (name : String) (params : JVal) (hist : List CommitResult) :
    CommitResult × List CommitResult :=
  match actions.lookup name with
  | none =>
      ({ success := false, action := name, result := none,
         executionTime := 0, affectedServices := [],
         error := some .notFound }, hist)
  | some action =>
      if action.validate.elim false (fun v => !(v params)) then
        ({ success := false, action := name, result := none,
           executionTime := 0, affectedServices := [],
           error := some .invalidParameters }, hist)
      else
        match action.run params with
        | .ok r =>
            let res : CommitResult :=
              { success := true, action := name, result := some r,
                executionTime := dur,
                affectedServices := getAffectedServices name, error := none }
            let h := hist ++ [res]
            (res, if h.length > 100 then h.drop (h.length - 50) else h)
        | .error e =>
            let res : CommitResult :=
              { success := false, action := name, result := none,
                executionTime := dur,
                affectedServices := getAffectedServices name,
                error := some (.thrown e) }
            (res, hist ++ [res])

/-! ## AuditLogger (src/src/lib/plugins/githubStorage.ts) -/

/-- Audit record severity. -/
inductive ALevel where
  | info : ALevel
  | warning : ALevel
  | error : ALevel
  | critical : ALevel

/-- Audit record category. -/
inductive ACategory where
  | chat : ACategory
  | plugin : ACategory
  | commit_api : ACategory
  | zhupi_api : ACategory
  | security : ACategory
  | system_cat : ACategory

/-- A durable `AuditLog` record (the `Date` timestamp is dropped; the id is
the generated `audit_...` string, passed in as `fresh`). -/
structure AuditLogRec where
  id          : String
  actor       : String
  action      : String
  input       : Option JVal
  result      : JVal
  sessionId   : Option String
  executionId : Option String
  category    : ACategory
  level       : ALevel
  metadata    : Option JVal

/-- The options bag of `logAction`. -/
structure LogOptions where
  input       : Option JVal := none
  sessionId   : Option String := none
  executionId : Option String := none
  category    : Option ACategory := none
  level       : Option ALevel := none
  metadata    : Option JVal := none

/-- State of the `AuditLogger` singleton: the in-memory pending buffer and
the durable store (`db.auditLog`). -/
structure ALState where
  pending : List AuditLogRec
  durable : List AuditLogRec

/-- Substring test without lowercasing: models `action.includes(word)`. -/
def strIncludes (a word : String) : Bool :=
  containsSub a.toList word.toList

/-- Prefix test on strings: models `action.startsWith(word)`. -/
def strStarts (a word : String) : Bool :=
  word.toList.isPrefixOf a.toList

/-- Models `AuditLogger.inferCategory(action)`. -/
def inferCategory (action : String) : ACategory :=
  if strStarts action "plugin_" then .plugin
  else if strStarts action "commit_api_" then .commit_api
  else if strStarts action "zhupi_api_" then .zhupi_api
  else if strStarts action "security_" then .security
  else if action = "chat" then .chat
  else .system_cat

/-- Models `result && result.success === false` on a JSON-like value. -/
def resultSuccessFalse (result : JVal) : Bool :=
  match result with
  | .obj fields =>
    match fields.lookup "success" with
    | some (.b false) => true
    | _ => false
  | _ => false

/-- Models `AuditLogger.inferLevel(action, result)`. -/
def inferLevel (action : String) (result : JVal) : ALevel :=
  if strStarts action "security_" then .warning
  else if resultSuccessFalse result then .error
  else if strIncludes action "restart" || strIncludes action "clear" then .warning
  else .info

/-- Models `AuditLogger.flushLogs()`: empty buffer is a no-op; otherwise the
pending records are drained and batch-written to the durable store; on a
failed write (`dbOk = false`) they are pushed back to the front of the
pending buffer (which the drain left empty), leaving the state unchanged. -/
def flushLogs (dbOk : Bool) (st : ALState) : ALState :=
  if st.pending.isEmpty then st
  else if dbOk then { pending := [], durable := st.durable ++ st.pending }
  else st

/-- The `AuditLog` record constructed by `logAction`. -/
def mkAuditRec (fresh actor action : String) (result : JVal)
    (opts : LogOptions) : AuditLogRec :=
  { id := fresh, actor := actor, action := action, input := opts.input,
    result := result, sessionId := opts.sessionId,
    executionId := opts.executionId,
    category := opts.category.getD (inferCategory action),
    level := opts.level.getD (inferLevel action result),
    metadata := opts.metadata }

/-- Models `AuditLogger.logAction(actor, action, result, options)`: build the
record (defaulting category/level via the infer functions), append it to
the pending buffer, and — when its level is `critical` or `error` — flush
the buffer to the durable store before returning. `dbOk` models whether
the durable batch write succeeds; `fresh` is the generated record id. -/
def logAction (dbOk : Bool) (st : ALState) (fresh actor action : String)
    (result : JVal) (opts : LogOptions) : String × ALState :=
  let rec0 := mkAuditRec fresh actor action result opts
  let st1 : ALState := { st with pending := st.pending ++ [rec0] }
  let st2 :=
    match rec0.level with
    | .critical => flushLogs dbOk st1
    | .error => flushLogs dbOk st1
    | _ => st1
  (rec0.id, st2)

/-! ## Helper lemmas -/

theorem mem_ite_singleton {α : Type} {c : Prop} [Decidable c] {x p : α}
    (h : p ∈ (if c then [x] else [])) : p = x := by
  split at h
  · simpa using h
  · simp at h

/-- Every preview produced by `createPreview` is one of the seven concrete
candidates, with its `action` and `requiresApproval` fields fixed. -/
theorem mem_createPreviews_cases (input : String) (p : Preview)
    (h : p ∈ createPreviews input) :
    (p.action = "pluginSummarizer" ∧ p.requiresApproval = false) ∨
    (p.action = "pluginTranslator" ∧ p.requiresApproval = false) ∨
    (p.action = "pluginGitHubStorage" ∧ p.requiresApproval = false) ∨
    (p.action = "restartAgent" ∧ p.requiresApproval = true) ∨
    (p.action = "clearCache" ∧ p.requiresApproval = true) ∨
    (p.action = "getPersona" ∧ p.requiresApproval = false) ∨
    (p.action = "updateMemory" ∧ p.requiresApproval = true) := by
  unfold createPreviews at h
  rcases List.mem_append.mp h with h | h
  · rcases List.mem_append.mp h with h | h
    · unfold analyzePluginActions at h
      rcases List.mem_append.mp h with h | h
      · rcases List.mem_append.mp h with h | h
        · cases mem_ite_singleton h
          exact Or.inl ⟨rfl, rfl⟩
        · cases mem_ite_singleton h
          exact Or.inr (Or.inl ⟨rfl, rfl⟩)
      · cases mem_ite_singleton h
        exact Or.inr (Or.inr (Or.inl ⟨rfl, rfl⟩))
    · unfold analyzeCommitActions at h
      rcases List.mem_append.mp h with h | h
      · cases mem_ite_singleton h
        exact Or.inr (Or.inr (Or.inr (Or.inl ⟨rfl, rfl⟩)))
      · cases mem_ite_singleton h
        exact Or.inr (Or.inr (Or.inr (Or.inr (Or.inl ⟨rfl, rfl⟩))))
  · unfold analyzeZhupiActions at h
    rcases List.mem_append.mp h with h | h
    · cases mem_ite_singleton h
      exact Or.inr (Or.inr (Or.inr (Or.inr (Or.inr (Or.inl ⟨rfl, rfl⟩)))))
    · cases mem_ite_singleton h
      exact Or.inr (Or.inr (Or.inr (Or.inr (Or.inr (Or.inr ⟨rfl, rfl⟩)))))

theorem riskLevel_critical_cases (a : String)
    (h : getActionRiskLevel a = .critical) : a = "restartAgent" := by
  unfold getActionRiskLevel at h
  split_ifs at h with h1 h2 h3
  simpa using h1

theorem riskLevel_high_cases (a : String)
    (h : getActionRiskLevel a = .high) :
    a = "clearCache" ∨ a = "updateMemory" ∨ a = "userManagement" := by
  unfold getActionRiskLevel at h
  split_ifs at h with h1 h2 h3
  simpa using h2

/-! ## Claims -/

/-- C2: every action classified `high` or `critical` by
`getActionRiskLevel` is in the static `requiresApproval` table, and every
preview that `createPreview` generates for such an action carries
`requiresApproval = true`. -/
theorem high_critical_requires_approval :
    (∀ a : String,
      getActionRiskLevel a = .high ∨ getActionRiskLevel a = .critical →
      requiresApproval a = true) ∧
    (∀ (input : String) (p : Preview), p ∈ createPreviews input →
      (getActionRiskLevel p.action = .high ∨
       getActionRiskLevel p.action = .critical) →
      p.requiresApproval = true) := by
  constructor
  · intro a h
    rcases h with h | h
    · rcases riskLevel_high_cases a h with rfl | rfl | rfl <;> decide
    · rcases riskLevel_critical_cases a h with rfl
      decide
  · intro input p hmem hrisk
    rcases mem_createPreviews_cases input p hmem with
      ⟨ha, hr⟩ | ⟨ha, hr⟩ | ⟨ha, hr⟩ | ⟨ha, hr⟩ | ⟨ha, hr⟩ | ⟨ha, hr⟩ | ⟨ha, hr⟩ <;>
      rw [ha] at hrisk <;>
      first
        | exact hr
        | rcases hrisk with h | h <;> exact absurd h (by decide)

/-- C2 witness: `clearCache` is high risk and in the approval table;
`restartAgent` is critical risk and its generated preview (from the input
`"restart agent"`) has `requiresApproval = true`. -/
theorem high_critical_requires_approval_witness :
    requiresApproval "clearCache" = true ∧
    ({ action := "restartAgent", typ := .commit_api,
       description := "Restart AI agent dan sistem terkait",
       parameters := .obj [], requiresApproval := true,
       estimatedImpact := "High - System restart will affect all users" } :
        Preview).requiresApproval = true := by
  refine ⟨high_critical_requires_approval.1 "clearCache" (Or.inl (by decide)), ?_⟩
  have e : createPreviews "restart agent" =
      [{ action := "restartAgent", typ := .commit_api,
         description := "Restart AI agent dan sistem terkait",
         parameters := .obj [], requiresApproval := true,
         estimatedImpact := "High - System restart will affect all users" }] := rfl
  exact high_critical_requires_approval.2 "restart agent" _
    (by rw [e]; exact List.mem_singleton.mpr rfl) (Or.inr (by decide))

theorem execStep_inv_mem (pg : PGState) (user execId : String)
    (approved : List String) (exec : Preview → Except String JVal)
    (q : Preview) (inv : Invocation)
    (h : inv ∈ (execStep pg user execId approved exec q).2.2) :
    inv.action = q.action ∧ isAuthorizedB pg q.action user = true := by
  unfold execStep at h
  by_cases h1 : approved.contains q.action
  · by_cases h2 : isAuthorizedB pg q.action user
    · rcases hexec : exec q with r | e <;> rw [h1, h2, hexec] at h <;>
        simp at h <;> rw [h] <;> exact ⟨rfl, h2⟩
    · rw [h1, eq_false_of_ne_true h2] at h
      simp at h
  · rw [eq_false_of_ne_true h1] at h
    simp at h

theorem execStep_result_none (pg : PGState) (user execId : String)
    (approved : List String) (exec : Preview → Except String JVal)
    (q : Preview) (h : approved.contains q.action = false) :
    (execStep pg user execId approved exec q).1 = none := by
  unfold execStep
  rw [h]
  rfl

theorem execStep_result_some_action (pg : PGState) (user execId : String)
    (approved : List String) (exec : Preview → Except String JVal)
    (q : Preview) (h : approved.contains q.action = true) :
    ∃ r, (execStep pg user execId approved exec q).1 = some r ∧
      r.action = q.action := by
  unfold execStep
  rw [h]
  by_cases h2 : isAuthorizedB pg q.action user
  · rcases hexec : exec q with r | e <;> rw [h2] <;>
      exact ⟨_, rfl, rfl⟩
  · rw [eq_false_of_ne_true h2]
    exact ⟨_, rfl, rfl⟩

/-- C1: an approved but unauthorized previewed action yields a failed
`ExecutionResult` tagged `Unauthorized action`, and no capability dispatch
(plugin, commit-API, zhupi-API, or internal) occurs for that action name
anywhere in the run. -/
theorem execute_unauthorized_blocks_dispatch
    (pg : PGState) (user input execId : String) (approved : List String)
    (exec : Preview → Except String JVal) (p : Preview)
    (hp : p ∈ createPreviews input)
    (happ : approved.contains p.action = true)
    (hauth : isAuthorizedB pg p.action user = false) :
    ({ success := false, action := p.action,
       result := .obj [("error", .s "Unauthorized action")],
       executionId := execId,
       auditLog := s!"Action {p.action} rejected by permission gate" } :
        ExecutionResult)
      ∈ (executeModel pg user input execId approved exec).results ∧
    ∀ inv ∈ (executeModel pg user input execId approved exec).invocations,
      inv.action ≠ p.action := by
  constructor
  · refine List.mem_filterMap.mpr ⟨p, hp, ?_⟩
    unfold execStep
    rw [happ, hauth]
    rfl
  · intro inv hinv
    rcases List.mem_flatMap.mp hinv with ⟨q, _, hq⟩
    rcases execStep_inv_mem pg user execId approved exec q inv hq with ⟨ha, hok⟩
    intro hcontra
    rw [ha] at hcontra
    rw [hcontra] at hok
    rw [hok] at hauth
    exact absurd hauth (by decide)

/-- C1 witness: `guest` (absent from the permission table) with approved
action `restartAgent` from input `"restart agent"`. -/
theorem execute_unauthorized_blocks_dispatch_witness :
    ({ success := false, action := "restartAgent",
       result := .obj [("error", .s "Unauthorized action")],
       executionId := "exec_1",
       auditLog := "Action restartAgent rejected by permission gate" } :
        ExecutionResult)
      ∈ (executeModel initPG "guest" "restart agent" "exec_1" ["restartAgent"]
          (fun _ => .ok (.obj []))).results ∧
    ∀ inv ∈ (executeModel initPG "guest" "restart agent" "exec_1"
        ["restartAgent"] (fun _ => .ok (.obj []))).invocations,
      inv.action ≠ "restartAgent" := by
  have e : createPreviews "restart agent" =
      [{ action := "restartAgent", typ := .commit_api,
         description := "Restart AI agent dan sistem terkait",
         parameters := .obj [], requiresApproval := true,
         estimatedImpact := "High - System restart will affect all users" }] := rfl
  exact execute_unauthorized_blocks_dispatch initPG "guest" "restart agent"
    "exec_1" ["restartAgent"] (fun _ => .ok (.obj [])) _
    (by rw [e]; exact List.mem_singleton.mpr rfl) (by decide) (by decide)

/-- C3 (amended): every approved and authorized previewed action — whether
its execution succeeds or throws — is written via `AuditLogger.logAction`
(actor = requesting user, action = the previewed action name) before
`execute` returns. Denied actions are not covered: see the counterexample. -/
theorem executed_outcomes_audited
    (pg : PGState) (user input execId : String) (approved : List String)
    (exec : Preview → Except String JVal) (p : Preview)
    (hp : p ∈ createPreviews input)
    (happ : approved.contains p.action = true)
    (hauth : isAuthorizedB pg p.action user = true) :
    ∃ c ∈ (executeModel pg user input execId approved exec).audits,
      c.actor = user ∧ c.action = p.action := by
  have hstep : ∃ c ∈ (execStep pg user execId approved exec p).2.1,
      c.actor = user ∧ c.action = p.action := by
    unfold execStep
    rw [happ, hauth]
    rcases hexec : exec p with r | e <;> simp
  rcases hstep with ⟨c, hc, hprop⟩
  exact ⟨c, List.mem_cons_of_mem _ (List.mem_flatMap.mpr ⟨p, hp, hc⟩), hprop⟩

/-- C3 witness: `han` (super admin) executing approved `restartAgent`. -/
theorem executed_outcomes_audited_witness :
    ∃ c ∈ (executeModel initPG "han" "restart agent" "exec_1" ["restartAgent"]
        (fun _ => .ok (.obj []))).audits,
      c.actor = "han" ∧ c.action = "restartAgent" := by
  have e : createPreviews "restart agent" =
      [{ action := "restartAgent", typ := .commit_api,
         description := "Restart AI agent dan sistem terkait",
         parameters := .obj [], requiresApproval := true,
         estimatedImpact := "High - System restart will affect all users" }] := rfl
  exact executed_outcomes_audited initPG "han" "restart agent" "exec_1"
    ["restartAgent"] (fun _ => .ok (.obj [])) _
    (by rw [e]; exact List.mem_singleton.mpr rfl) (by decide) (by decide)

/-- C3 counterexample: with user `guest` (no permissions) and approved
action `restartAgent`, `execute` produces exactly one `ExecutionResult`
(the unauthorized failure for `restartAgent`), yet no
`AuditLogger.logAction` call of the run mentions `restartAgent` — the only
call is the `execution_start` record keyed by the raw input. The denied
outcome therefore has no corresponding `AuditRecord`. -/
theorem denied_outcome_not_audited_cex :
    (executeModel initPG "guest" "restart agent" "exec_1" ["restartAgent"]
        (fun _ => .ok (.obj []))).results.map (fun r => r.action)
      = ["restartAgent"] ∧
    (executeModel initPG "guest" "restart agent" "exec_1" ["restartAgent"]
        (fun _ => .ok (.obj []))).results.map (fun r => r.success)
      = [false] ∧
    ∀ c ∈ (executeModel initPG "guest" "restart agent" "exec_1"
        ["restartAgent"] (fun _ => .ok (.obj []))).audits,
      c.action ≠ "restartAgent" := by
  refine ⟨rfl, rfl, ?_⟩
  decide

theorem filterMap_execStep_map_action (pg : PGState) (user execId : String)
    (approved : List String) (exec : Preview → Except String JVal)
    (l : List Preview) :
    (l.filterMap (fun p => (execStep pg user execId approved exec p).1)).map
        (fun r => r.action)
      = (l.map (fun p => p.action)).filter (fun a => approved.contains a) := by
  induction l with
  | nil => rfl
  | cons p l ih =>
    cases hc : approved.contains p.action with
    | false =>
        rw [List.filterMap_cons, execStep_result_none pg user execId approved exec p hc,
            ih, List.map_cons, List.filter_cons, hc]
        simp
    | true =>
        rcases execStep_result_some_action pg user execId approved exec p hc with
          ⟨r, hr, hra⟩
        rw [List.filterMap_cons, hr, List.map_cons, ih, hra, List.map_cons,
            List.filter_cons, hc]
        simp

/-- C4 (amended): the results of `execute` are in preview-generation order
(plugin, commit-API, then zhupi-API matchers), one result per previewed
action whose name is in `approvedActions`; names in `approvedActions` that
match no preview are silently skipped. -/
theorem results_in_preview_order (pg : PGState) (user input execId : String)
    (approved : List String) (exec : Preview → Except String JVal) :
    (executeModel pg user input execId approved exec).results.map
        (fun r => r.action)
      = ((createPreviews input).map (fun p => p.action)).filter
          (fun a => approved.contains a) :=
  filterMap_execStep_map_action pg user execId approved exec (createPreviews input)

/-- C4 counterexample: the input `"restart agent clear cache"` previews
`restartAgent` then `clearCache`; approving them as
`["clearCache", "restartAgent"]` returns results ordered
`["restartAgent", "clearCache"]` — the preview order, not the
`approvedActions` order claimed. -/
theorem results_not_in_approved_order_cex :
    (executeModel initPG "han" "restart agent clear cache" "exec_1"
        ["clearCache", "restartAgent"] (fun _ => .ok (.obj []))).results.map
        (fun r => r.action)
      = ["restartAgent", "clearCache"] ∧
    (["restartAgent", "clearCache"] : List String)
      ≠ ["clearCache", "restartAgent"] := by
  exact ⟨rfl, by decide⟩

/-- C5 (amended): a permission set is only mutated by a caller
holding `super_admin` — without it, `grantPermission`, `revokePermission`
and `assignRole` leave the permission table untouched — but grants and
revokes are *not* audited: none of the three operations ever appends to the
permission check log (and none calls `AuditLogger`); they emit only console
messages. -/
theorem permission_mutations_super_admin_only_unaudited
    (st : PGState) (u a r act : String) :
    (hasRole st act "super_admin" = false →
      (grantPermission st u a act).2.1.permissions = st.permissions ∧
      (revokePermission st u a act).2.1.permissions = st.permissions ∧
      (assignRole st u r act).2.1.permissions = st.permissions) ∧
    (grantPermission st u a act).2.1.checkLog = st.checkLog ∧
    (revokePermission st u a act).2.1.checkLog = st.checkLog ∧
    (assignRole st u r act).2.1.checkLog = st.checkLog := by
  constructor
  · intro h
    refine ⟨?_, ?_, ?_⟩
    · unfold grantPermission
      rw [h]
      rfl
    · unfold revokePermission
      rw [h]
      rfl
    · unfold assignRole
      rw [h]
      rfl
  · refine ⟨?_, ?_, ?_⟩
    · by_cases h : hasRole st act "super_admin"
      · simp only [grantPermission, h]
        by_cases h2 : (List.lookup u st.permissions).isSome <;> simp [h2]
      · simp [grantPermission, h]
    · by_cases h : hasRole st act "super_admin"
      · simp only [revokePermission, h]
        cases st.permissions.lookup u <;> simp
      · simp [revokePermission, h]
    · by_cases h : hasRole st act "super_admin"
      · simp only [assignRole, h]
        cases st.roles.lookup r <;> simp
      · simp [assignRole, h]

/-- C5 witness: on the initial state, `guest` lacks `super_admin`, so all
three mutators leave the permission table untouched; and no operation
touches the (empty) check log. -/
theorem permission_mutations_super_admin_only_unaudited_witness :
    ((grantPermission initPG "alice" "getPersona" "guest").2.1.permissions
        = initPG.permissions ∧
     (revokePermission initPG "alice" "getPersona" "guest").2.1.permissions
        = initPG.permissions ∧
     (assignRole initPG "alice" "user" "guest").2.1.permissions
        = initPG.permissions) ∧
    (grantPermission initPG "alice" "getPersona" "guest").2.1.checkLog
        = initPG.checkLog :=
  ⟨(permission_mutations_super_admin_only_unaudited initPG "alice"
      "getPersona" "user" "guest").1 (by decide),
   (permission_mutations_super_admin_only_unaudited initPG "alice"
      "getPersona" "user" "guest").2.1⟩

/-- C5 counterexample: a *successful* grant — `han` holds `super_admin` and
`grantPermission` returns `true` — appends nothing to the permission check
log (it stays empty) and makes no durable audit call, so the grant is not
audited anywhere, contradicting the claim that every grant/revoke is
itself audited. -/
theorem grant_not_audited_cex :
    (grantPermission initPG "alice" "getPersona" "han").1 = true ∧
    (grantPermission initPG "alice" "getPersona" "han").2.1.checkLog
      = ([] : List PermCheck) := by
  constructor
  · decide
  · rfl

/-- C6: when the acting user does not hold `super_admin`, each of
`grantPermission`, `revokePermission`, `assignRole` returns `false` (the
model functions are total, so no exception is thrown), leaves the entire
gate state — in particular every permission set — unchanged, and
emits exactly one warning-level console message for the denial. -/
theorem unauthorized_mutation_denied (st : PGState) (u a r act : String)
    (h : hasRole st act "super_admin" = false) :
    grantPermission st u a act = (false, st,
      [{ level := .warn,
         text := s!"{act} attempted to grant permission without super admin role" }]) ∧
    revokePermission st u a act = (false, st,
      [{ level := .warn,
         text := s!"{act} attempted to revoke permission without super admin role" }]) ∧
    assignRole st u r act = (false, st,
      [{ level := .warn,
         text := s!"{act} attempted to assign role without super admin role" }]) := by
  refine ⟨?_, ?_, ?_⟩
  · unfold grantPermission
    rw [h]
    rfl
  · unfold revokePermission
    rw [h]
    rfl
  · unfold assignRole
    rw [h]
    rfl

/-- C6 witness: `guest` (no `super_admin`) attempting all three mutations
on the initial state. -/
theorem unauthorized_mutation_denied_witness :
    grantPermission initPG "alice" "getPersona" "guest" = (false, initPG,
      [{ level := .warn,
         text := "guest attempted to grant permission without super admin role" }]) ∧
    revokePermission initPG "alice" "getPersona" "guest" = (false, initPG,
      [{ level := .warn,
         text := "guest attempted to revoke permission without super admin role" }]) ∧
    assignRole initPG "alice" "user" "guest" = (false, initPG,
      [{ level := .warn,
         text := "guest attempted to assign role without super admin role" }]) :=
  unauthorized_mutation_denied initPG "alice" "getPersona" "user" "guest" (by decide)

theorem lookup_aset {α : Type} (m : List (String × α)) (k : String) (v : α) :
    (aset m k v).lookup k = some v := by
  induction m with
  | nil => simp [aset, List.lookup]
  | cons hd tl ih =>
    obtain ⟨k0, v0⟩ := hd
    by_cases h : k0 = k
    · subst h
      simp [aset, List.lookup]
    · simp [aset, h, List.lookup, beq_false_of_ne (Ne.symm h), ih]

theorem dedupFirst_aux (l : List String) :
    ∀ acc, l.Nodup → (∀ b ∈ l, b ∉ acc) →
    l.foldl (fun acc a => if acc.contains a then acc else acc ++ [a]) acc
      = acc ++ l := by
  induction l with
  | nil =>
    intro acc _ _
    simp
  | cons a l ih =>
    intro acc hd hdisj
    have hna : acc.contains a = false := by
      simpa using hdisj a (List.mem_cons_self a l)
    rw [List.foldl_cons, hna]
    simp only [Bool.false_eq_true, if_false]
    rw [ih (acc ++ [a]) (List.Nodup.of_cons hd)]
    · simp
    · intro b hb
      simp only [List.mem_append, List.mem_singleton]
      rintro (hacc | rfl)
      · exact hdisj b (List.mem_cons_of_mem a hb) hacc
      · exact (List.nodup_cons.mp hd).1 hb

theorem dedupFirst_of_nodup (l : List String) (h : l.Nodup) :
    dedupFirst l = l := by
  unfold dedupFirst
  rw [dedupFirst_aux l [] h (by simp)]
  simp

/-- C10: a successful `assignRole` replaces the entire permission
set with exactly the (duplicate-free) permission list of the role — any
individually granted permission not in the role is discarded, and
`getUserPermissions` afterwards returns exactly the permissions of the role. -/
theorem assignRole_replaces_permission_set
    (st : PGState) (user role assignedBy : String) (roleData : Role)
    (hadmin : hasRole st assignedBy "super_admin" = true)
    (hrole : st.roles.lookup role = some roleData)
    (hnd : roleData.permissions.Nodup) :
    (assignRole st user role assignedBy).1 = true ∧
    getUserPermissions (assignRole st user role assignedBy).2.1 user
      = roleData.permissions := by
  unfold assignRole
  rw [hadmin, hrole]
  constructor
  · rfl
  · show getUserPermissions
      { st with permissions := aset st.permissions user (dedupFirst roleData.permissions) }
      user = roleData.permissions
    unfold getUserPermissions
    rw [show ({ st with
        permissions := aset st.permissions user (dedupFirst roleData.permissions) } :
          PGState).permissions
      = aset st.permissions user (dedupFirst roleData.permissions) from rfl]
    rw [lookup_aset, Option.getD_some, dedupFirst_of_nodup roleData.permissions hnd]

/-- C10 witness: `han` assigns the `user` role to `alice` on the initial
state; afterwards `alice` has exactly the permissions of the `user` role. -/
theorem assignRole_replaces_permission_set_witness :
    (assignRole initPG "alice" "user" "han").1 = true ∧
    getUserPermissions (assignRole initPG "alice" "user" "han").2.1 "alice"
      = userPerms :=
  assignRole_replaces_permission_set initPG "alice" "user" "han"
    { name := "User", permissions := userPerms,
      description := "Basic user access - Read-only plugins" }
    (by decide) rfl (by decide)

/-- C7: both `PluginExecutor.executePlugin` and
`CommitRouter.executeAction` are total (no exception reaches the caller):
an unregistered name yields a failure tagged not-found; a rejected
`validate` yields a failure tagged invalid-parameters; otherwise the
capability runs, and its success or thrown failure — including the elapsed
time `dur` — is wrapped into the returned result. -/
theorem executeAction_contract
    (plugins : List (String × Plugin)) (actions : List (String × CommitAction))
    (dur : Nat) (name : String) (params : JVal)
    (hist : List PluginResult) (chist : List CommitResult) :
    ((plugins.lookup name = none →
      (executePlugin plugins dur name params hist).1 =
        { success := false, plugin := name, result := none,
          executionTime := 0, error := some .notFound }) ∧
     (∀ pl v, plugins.lookup name = some pl → pl.validate = some v →
       v params = false →
       (executePlugin plugins dur name params hist).1 =
         { success := false, plugin := name, result := none,
           executionTime := 0, error := some .invalidParameters }) ∧
     (∀ pl, plugins.lookup name = some pl →
       pl.validate.elim true (fun v => v params) = true →
       ((∃ r, pl.run params = .ok r ∧
          (executePlugin plugins dur name params hist).1 =
            { success := true, plugin := name, result := some r,
              executionTime := dur, error := none }) ∨
        (∃ e, pl.run params = .error e ∧
          (executePlugin plugins dur name params hist).1 =
            { success := false, plugin := name, result := none,
              executionTime := dur, error := some (.thrown e) })))) ∧
    ((actions.lookup name = none →
      (executeCommitAction actions dur name params chist).1 =
        { success := false, action := name, result := none,
          executionTime := 0, affectedServices := [],
          error := some .notFound }) ∧
     (∀ ca v, actions.lookup name = some ca → ca.validate = some v →
       v params = false →
       (executeCommitAction actions dur name params chist).1 =
         { success := false, action := name, result := none,
           executionTime := 0, affectedServices := [],
           error := some .invalidParameters }) ∧
     (∀ ca, actions.lookup name = some ca →
       ca.validate.elim true (fun v => v params) = true →
       ((∃ r, ca.run params = .ok r ∧
          (executeCommitAction actions dur name params chist).1 =
            { success := true, action := name, result := some r,
              executionTime := dur,
              affectedServices := getAffectedServices name, error := none }) ∨
        (∃ e, ca.run params = .error e ∧
          (executeCommitAction actions dur name params chist).1 =
            { success := false, action := name, result := none,
              executionTime := dur,
              affectedServices := getAffectedServices name,
              error := some (.thrown e) })))) := by
  constructor
  · refine ⟨?_, ?_, ?_⟩
    · intro hl
      unfold executePlugin
      rw [hl]
    · intro pl v hl hv hrej
      unfold executePlugin
      rw [hl]
      simp only [hv, Option.elim_some, hrej, Bool.not_false, if_true]
    · intro pl hl hok
      unfold executePlugin
      rw [hl]
      have hcond : pl.validate.elim false (fun v => !(v params)) = false := by
        cases hv : pl.validate with
        | none => rfl
        | some v =>
          rw [hv, Option.elim_some] at hok
          simp [hok]
      simp only [hcond, Bool.false_eq_true, if_false]
      cases hrun : pl.run params with
      | ok r => exact Or.inl ⟨r, rfl, rfl⟩
      | error e => exact Or.inr ⟨e, rfl, rfl⟩
  · refine ⟨?_, ?_, ?_⟩
    · intro hl
      unfold executeCommitAction
      rw [hl]
    · intro ca v hl hv hrej
      unfold executeCommitAction
      rw [hl]
      simp only [hv, Option.elim_some, hrej, Bool.not_false, if_true]
    · intro ca hl hok
      unfold executeCommitAction
      rw [hl]
      have hcond : ca.validate.elim false (fun v => !(v params)) = false := by
        cases hv : ca.validate with
        | none => rfl
        | some v =>
          rw [hv, Option.elim_some] at hok
          simp [hok]
      simp only [hcond, Bool.false_eq_true, if_false]
      cases hrun : ca.run params with
      | ok r => exact Or.inl ⟨r, rfl, rfl⟩
      | error e => exact Or.inr ⟨e, rfl, rfl⟩

/-- C7 witness: on empty registries the unknown name `x` yields the tagged
not-found failure for both dispatch classes. -/
theorem executeAction_contract_witness :
    (executePlugin [] 0 "x" (.obj []) []).1 =
      { success := false, plugin := "x", result := none,
        executionTime := 0, error := some .notFound } ∧
    (executeCommitAction [] 0 "x" (.obj []) []).1 =
      { success := false, action := "x", result := none,
        executionTime := 0, affectedServices := [],
        error := some .notFound } :=
  ⟨(executeAction_contract [] [] 0 "x" (.obj []) [] []).1.1 rfl,
   (executeAction_contract [] [] 0 "x" (.obj []) [] []).2.1 rfl⟩

/-- C8: when the record built by `logAction` has level `error` or
`critical` and the durable batch write succeeds, the pending buffer is
flushed before `logAction` returns: in the returned state the new record
is already in the durable store and the pending buffer is empty, so a
crash after the call (before the next timer tick) cannot lose it. -/
theorem critical_or_error_flushed_immediately
    (st : ALState) (fresh actor action : String) (result : JVal)
    (opts : LogOptions)
    (hlvl : (mkAuditRec fresh actor action result opts).level = .error ∨
            (mkAuditRec fresh actor action result opts).level = .critical) :
    mkAuditRec fresh actor action result opts
      ∈ (logAction true st fresh actor action result opts).2.durable ∧
    (logAction true st fresh actor action result opts).2.pending = [] := by
  have hne : (st.pending ++ [mkAuditRec fresh actor action result opts]).isEmpty
      = false := by
    simp
  rcases hlvl with h | h <;>
    refine ⟨?_, ?_⟩ <;>
      simp [logAction, h, flushLogs, hne]

/-- C8 witness: an explicitly critical record logged on an empty logger
state ends up durable with an empty pending buffer. -/
theorem critical_or_error_flushed_immediately_witness :
    mkAuditRec "audit_1" "han" "restartAgent" (.obj [])
        { level := some .critical }
      ∈ (logAction true { pending := [], durable := [] } "audit_1" "han"
          "restartAgent" (.obj []) { level := some .critical }).2.durable ∧
    (logAction true { pending := [], durable := [] } "audit_1" "han"
        "restartAgent" (.obj []) { level := some .critical }).2.pending = [] :=
  critical_or_error_flushed_immediately { pending := [], durable := [] }
    "audit_1" "han" "restartAgent" (.obj []) { level := some .critical }
    (Or.inr rfl)

/-- C9 (amended): after a *successful* plugin invocation the execution
history holds at most 100 entries (a push beyond 100 trims it to the most
recent 50); but a *failing* invocation appends its result without any
trimming, and not-found / invalid-parameter invocations are not appended
at all — so the buffer is not bounded by 100 across all invocation kinds. -/
theorem executePlugin_eq_notFound (plugins : List (String × Plugin))
    (dur : Nat) (name : String) (params : JVal) (hist : List PluginResult)
    (hl : plugins.lookup name = none) :
    executePlugin plugins dur name params hist =
      ({ success := false, plugin := name, result := none,
         executionTime := 0, error := some .notFound }, hist) := by
  unfold executePlugin
  rw [hl]

theorem executePlugin_eq_invalid (plugins : List (String × Plugin))
    (dur : Nat) (name : String) (params : JVal) (hist : List PluginResult)
    (pl : Plugin) (v : JVal → Bool) (hl : plugins.lookup name = some pl)
    (hv : pl.validate = some v) (hrej : v params = false) :
    executePlugin plugins dur name params hist =
      ({ success := false, plugin := name, result := none,
         executionTime := 0, error := some .invalidParameters }, hist) := by
  unfold executePlugin
  rw [hl]
  simp only [hv, Option.elim_some, hrej, Bool.not_false, if_true]

/-- The success result built by `executePlugin` (the `let res` of the
ok path of the source). -/
def okResult (name : String) (r : JVal) (dur : Nat) : PluginResult :=
  { success := true, plugin := name, result := some r,
    executionTime := dur, error := none }

/-- The failure result built by `executePlugin` when the plugin throws. -/
def thrownResult (name e : String) (dur : Nat) : PluginResult :=
  { success := false, plugin := name, result := none,
    executionTime := dur, error := some (.thrown e) }

theorem executePlugin_eq_ok (plugins : List (String × Plugin))
    (dur : Nat) (name : String) (params : JVal) (hist : List PluginResult)
    (pl : Plugin) (r : JVal) (hl : plugins.lookup name = some pl)
    (hcond : pl.validate.elim false (fun v => !(v params)) = false)
    (hrun : pl.run params = .ok r) :
    executePlugin plugins dur name params hist =
      (okResult name r dur,
       if (hist ++ [okResult name r dur]).length > 100 then
         (hist ++ [okResult name r dur]).drop
           ((hist ++ [okResult name r dur]).length - 50)
       else hist ++ [okResult name r dur]) := by
  unfold executePlugin okResult
  rw [hl]
  simp only [hcond, Bool.false_eq_true, if_false, hrun]

theorem executePlugin_eq_error (plugins : List (String × Plugin))
    (dur : Nat) (name : String) (params : JVal) (hist : List PluginResult)
    (pl : Plugin) (e : String) (hl : plugins.lookup name = some pl)
    (hcond : pl.validate.elim false (fun v => !(v params)) = false)
    (hrun : pl.run params = .error e) :
    executePlugin plugins dur name params hist =
      (thrownResult name e dur, hist ++ [thrownResult name e dur]) := by
  unfold executePlugin thrownResult
  rw [hl]
  simp only [hcond, Bool.false_eq_true, if_false, hrun]

theorem execution_history_bound
    (plugins : List (String × Plugin)) (dur : Nat) (name : String)
    (params : JVal) (hist : List PluginResult) :
    ((executePlugin plugins dur name params hist).1.success = true →
      (executePlugin plugins dur name params hist).2.length ≤ 100) ∧
    (∀ e, (executePlugin plugins dur name params hist).1.error
        = some (.thrown e) →
      (executePlugin plugins dur name params hist).2
        = hist ++ [(executePlugin plugins dur name params hist).1]) ∧
    ((executePlugin plugins dur name params hist).1.error = some .notFound ∨
     (executePlugin plugins dur name params hist).1.error
        = some .invalidParameters →
      (executePlugin plugins dur name params hist).2 = hist) := by
  cases hl : plugins.lookup name with
  | none =>
      rw [executePlugin_eq_notFound plugins dur name params hist hl]
      exact ⟨fun h => by simp at h, fun e he => by simp at he, fun _ => rfl⟩
  | some pl =>
      cases hcond : pl.validate.elim false (fun v => !(v params)) with
      | true =>
          obtain ⟨v, hv, hrej⟩ : ∃ v, pl.validate = some v ∧ v params = false := by
            cases hv : pl.validate with
            | none =>
                rw [hv, Option.elim_none] at hcond
                exact absurd hcond (by decide)
            | some v =>
                rw [hv, Option.elim_some] at hcond
                exact ⟨v, rfl, by simpa using hcond⟩
          rw [executePlugin_eq_invalid plugins dur name params hist pl v hl hv hrej]
          exact ⟨fun h => by simp at h, fun e he => by simp at he, fun _ => rfl⟩
      | false =>
          cases hrun : pl.run params with
          | ok r =>
              rw [executePlugin_eq_ok plugins dur name params hist pl r hl hcond hrun]
              refine ⟨fun _ => ?_, fun e he => by simp [okResult] at he,
                fun h => by rcases h with h | h <;> simp [okResult] at h⟩
              dsimp only
              split
              next hgt =>
                rw [List.length_drop]
                omega
              next hle =>
                rw [List.length_append, List.length_singleton] at hle ⊢
                omega
          | error e =>
              rw [executePlugin_eq_error plugins dur name params hist pl e hl hcond hrun]
              refine ⟨fun h => by simp [thrownResult] at h, fun e2 he2 => rfl,
                fun h => by rcases h with h | h <;> simp [thrownResult] at h⟩

/-- A plugin that always succeeds, for exercising the success path. -/
def okPlugin : Plugin :=
  { name := "p", description := "always ok", version := "1.0.0",
    validate := none, run := fun _ => .ok .null }

/-- A plugin that always throws, for exercising the failure path. -/
def boomPlugin : Plugin :=
  { name := "q", description := "always throws", version := "1.0.0",
    validate := none, run := fun _ => .error "boom" }

/-- C9 witness: a successful invocation keeps the (empty) history within
the bound, and a throwing plugin appends its failure result verbatim. -/
theorem execution_history_bound_witness :
    (executePlugin [("p", okPlugin)] 0 "p" (.obj []) []).2.length ≤ 100 ∧
    (executePlugin [("q", boomPlugin)] 0 "q" (.obj []) []).2
      = [{ success := false, plugin := "q", result := none,
           executionTime := 0, error := some (.thrown "boom") }] :=
  ⟨(execution_history_bound [("p", okPlugin)] 0 "p" (.obj []) []).1 rfl,
   (execution_history_bound [("q", boomPlugin)] 0 "q" (.obj []) []).2.1
     "boom" rfl⟩

/-- A registry holding one always-throwing plugin, used to exercise the
failure path of `executePlugin` repeatedly. -/
def failReg : List (String × Plugin) :=
  [("p", { name := "p", description := "always fails", version := "1.0.0",
           validate := none, run := fun _ => .error "fail" })]

/-- One failing invocation of `executePlugin`, threaded on the history. -/
def failStep (h : List PluginResult) : List PluginResult :=
  (executePlugin failReg 0 "p" (.obj []) h).2

/-- C9 counterexample: 101 consecutive failing invocations leave 101
entries in the execution-history buffer — the failure path appends without
trimming, so the buffer exceeds the claimed cap of 100. -/
theorem execution_history_exceeds_cap_cex :
    100 < (failStep^[101] ([] : List PluginResult)).length := by
  have hstep : ∀ h : List PluginResult, failStep h
      = h ++ [{ success := false, plugin := "p", result := none,
                executionTime := 0, error := some (.thrown "fail") }] :=
    fun h => rfl
  have hlen : ∀ n : Nat, (failStep^[n] ([] : List PluginResult)).length = n := by
    intro n
    induction n with
    | zero => rfl
    | succ n ih =>
        rw [Function.iterate_succ_apply', hstep, List.length_append, ih]
        rfl
  rw [hlen 101]
  omega

end Odark
